import Mathlib

/-!
Verification of the analog signal-chain test system.

This file gives a shallow embedding of the core logic of the repository:
the numeric helpers of src/core/utils.py (DAC code conversion, linearity
metrics), the scan loop progress reporting and power sequence of
src/core/test_logic.py, the per-stage scan parameter computation of
src/automation/test_sequencer.py, and the per-site CP test runner of
src/cp_test/test_logic.py.  Python floats are idealised as exact rationals
(or reals where a transcendental power is computed); Python `int(...)`
truncation is modelled explicitly.  Theorems at the end settle the spec
claims against these embeddings.
-/

/-- Python `int(x)` applied to a float: truncation toward zero. -/
def pyInt (q : ℚ) : ℤ := if 0 ≤ q then ⌊q⌋ else ⌈q⌉

/-- Embeds `calculate_dac_code` from src/core/utils.py.  `v_range` is the
parsed value of `voltage_range_str` and `desired_v` the requested voltage
(the `ValueError` branch for unparsable strings, which returns 0, is outside
this model).  The source keeps a unipolar fallback `[0, range]` that is
selected when the bipolar check fails but `0 <= v <= range` holds; it is kept
here verbatim.  `int(...)` is truncation toward zero and the final result is
clamped to `[0, 65535]`. -/
def calculate_dac_code (v_range desired_v : ℚ) : ℤ :=
  let min_v : ℚ := -v_range
  let max_v : ℚ := v_range
  let bounds : ℚ × ℚ :=
    if ¬(min_v ≤ desired_v ∧ desired_v ≤ max_v) then
      if 0 ≤ desired_v ∧ desired_v ≤ v_range then (0, v_range) else (min_v, max_v)
    else (min_v, max_v)
  let dac_resolution : ℚ := 2 ^ 16 - 1
  let voltage_span : ℚ := bounds.2 - bounds.1
  if voltage_span = 0 then 0
  else
    let control_code := pyInt ((desired_v - bounds.1) / voltage_span * dac_resolution)
    max 0 (min control_code 65535)

/-- Embeds the progress report of `LinearityTestLogic.run_test`
(src/core/test_logic.py line 206): `int((idx + 1) / total_steps * 100)`,
emitted after completing the 0-based point `idx` of a scan of
`total_steps` points. -/
def scan_progress (total_steps : ℕ) (idx : ℕ) : ℤ :=
  pyInt (((idx : ℚ) + 1) / (total_steps : ℚ) * 100)

/-- The list of progress values reported over one full (uncancelled) scan. -/
def scan_progress_reports (points : ℕ) : List ℤ :=
  (List.range points).map (scan_progress points)

/-- The record returned by `calculate_linearity_metrics`
(src/core/utils.py lines 170-179). -/
structure LinearityMetrics where
  gain : ℚ
  offset : ℚ
  inl : List ℚ
  dnl : List ℚ
  lsb_ideal : ℚ
  nonlinearity_pct : ℚ
  max_inl : ℚ
  max_dnl : ℚ
deriving DecidableEq

/-- Mean of a list, `np.mean`: sum divided by length. -/
def listMean (l : List ℚ) : ℚ := l.sum / (l.length : ℚ)

/-- Consecutive differences, `np.diff`. -/
def listDiff (l : List ℚ) : List ℚ := List.zipWith (fun a b => b - a) l l.tail

/-- Maximum of a list, `np.max`; only applied to nonempty lists in this file
(`np.max` raises on an empty array, here the 0 default is never reached). -/
def listMax : List ℚ → ℚ
  | [] => 0
  | x :: xs => xs.foldl max x

/-- Minimum of a list, `np.min`; only applied to nonempty lists in this file. -/
def listMin : List ℚ → ℚ
  | [] => 0
  | x :: xs => xs.foldl min x

/-- Embeds `np.linalg.lstsq` on the design matrix `[x 1]` (src/core/utils.py
lines 125-126), returning `(gain, offset)`.  When the matrix has full column
rank (equivalently `d = n*Σx² - (Σx)² ≠ 0`, i.e. not all x equal) this is the
unique normal-equations solution; when `d = 0` all x equal some `c` and
`lstsq` returns the minimum-norm least-squares solution, which is
`(c, 1) * ȳ / (c² + 1)`. -/
def lstsqFit (x y : List ℚ) : ℚ × ℚ :=
  let n : ℚ := (x.length : ℚ)
  let sx := x.sum
  let sy := y.sum
  let sxx := (x.map (fun v => v * v)).sum
  let sxy := (List.zipWith (fun a b => a * b) x y).sum
  let d := n * sxx - sx * sx
  if d = 0 then
    let c := sx / n
    let ybar := sy / n
    (c * ybar / (c * c + 1), ybar / (c * c + 1))
  else
    ((n * sxy - sx * sy) / d, (sy * sxx - sx * sxy) / d)

/-- The DNL series (src/core/utils.py lines 150-154): an all-zero array of
the length of `y` whose entries for `i ≥ 1` are `(y[i]-y[i-1])/lsb - 1`. -/
def dnlList (lsb : ℚ) : List ℚ → List ℚ
  | [] => []
  | yh :: yt => 0 :: List.zipWith (fun a b => (b - a) / lsb - 1) (yh :: yt) yt

/-- Embeds `calculate_linearity_metrics` from src/core/utils.py.  Inputs with
fewer than 2 points return `none` (the source returns `None`); otherwise the
least-squares fit, `lsb_ideal` (with the `1e-9` substitution when the
computed value is 0), INL, DNL, nonlinearity percent and the absolute maxima
are computed exactly as in the source. -/
def calculate_linearity_metrics (input_values measured_values : List ℚ) :
    Option LinearityMetrics :=
  let x := input_values
  let y := measured_values
  if x.length < 2 then none
  else
    let fit := lstsqFit x y
    let gain := fit.1
    let offset := fit.2
    let y_fit := x.map (fun v => gain * v + offset)
    let lsb0 : ℚ := if 1 < x.length then listMean (listDiff x) * gain else 1
    let lsb_ideal : ℚ := if lsb0 = 0 then 1 / 1000000000 else lsb0
    let inl := List.zipWith (fun a b => (a - b) / lsb_ideal) y y_fit
    let dnl := dnlList lsb_ideal y
    let fsr := listMax y - listMin y
    let max_dev := listMax (List.zipWith (fun a b => |a - b|) y y_fit)
    let nonlinearity_pct : ℚ := if 0 < fsr then max_dev / fsr * 100 else 0
    some { gain := gain, offset := offset, inl := inl, dnl := dnl,
           lsb_ideal := lsb_ideal, nonlinearity_pct := nonlinearity_pct,
           max_inl := listMax (inl.map (fun v => |v|)),
           max_dnl := listMax (dnl.map (fun v => |v|)) }

/-- Safety limit for the input amplitude in volts
(src/automation/test_sequencer.py line 7). -/
noncomputable def VIN_SAFETY_LIMIT : ℝ := 1 / 2

/-- The per-stage gain table `AutoTestSequencer.gain_map`
(src/automation/test_sequencer.py lines 20-28), with the `.get` default 0
for indices outside the table. -/
noncomputable def gain_map (stage_index : ℕ) : ℝ :=
  if stage_index = 1 then -(48 / 5)
  else if stage_index = 2 then -(18 / 5)
  else if stage_index = 3 then 0
  else if stage_index = 4 then 2
  else if stage_index = 5 then 4
  else if stage_index = 6 then 6
  else if stage_index = 7 then 8
  else 0

/-- Embeds `AutoTestSequencer.calculate_scan_params`
(src/automation/test_sequencer.py lines 201-224), returning
`(start_v, step_v, points)`.  The float power `10 ** (gain_db / 20.0)` is
idealised as the real power. -/
noncomputable def calculate_scan_params (stage_index : ℕ) : ℝ × ℝ × ℕ :=
  let gain_db := gain_map stage_index
  let g_lin : ℝ := (10 : ℝ) ^ (gain_db / 20)
  let v_amp_raw : ℝ := (1 / 4) / g_lin
  let v_in_amp : ℝ := if VIN_SAFETY_LIMIT < v_amp_raw then VIN_SAFETY_LIMIT else v_amp_raw
  let start_v := -v_in_amp
  let points : ℕ := 101
  let step_v := 2 * v_in_amp / ((points : ℝ) - 1)
  (start_v, step_v, points)

/-- The amplitude as the spec words it: `clamp(0.25 / 10^(gainDb/20), 0, 0.5)`
over the same per-stage gain table. -/
noncomputable def scanAmplitudeSpec (stage_index : ℕ) : ℝ :=
  max 0 (min ((1 / 4) / (10 : ℝ) ^ (gain_map stage_index / 20)) (1 / 2))

/-- Debug constant of src/cp_test/test_logic.py line 8: abort the per-site
test when the power limit check fails. -/
def ABORT_ON_POWER_FAIL : Bool := false

/-- Debug constant of src/cp_test/test_logic.py line 10: ignore a stage
linearity failure. -/
def IGNORE_LINEARITY_FAIL : Bool := true

/-- Nonlinearity limit in percent (src/cp_test/test_logic.py line 11). -/
def NO_LINEARITY_LIMIT : ℚ := 1

/-- The part of `CPTestRunner.test_data` that the claims are about:
`Final_Result`, `Fail_Reason`, `Power_Check_Result`, the list of stages whose
scan was started, and the per-stage recorded results. -/
structure CPTestState where
  final_result : String
  fail_reason : String
  power_check_result : String
  stages_run : List ℕ
  stage_results : List (ℕ × String)
deriving DecidableEq

/-- The per-stage verdict computed in `CPTestRunner.on_stage_finished`
(src/cp_test/test_logic.py lines 184-203).  `metrics` is the outcome of
`read_latest_stage_result` for the stage: `none` when it is falsy (`None` or
an empty dict), otherwise the parsed `Nonlinearity` value (the dict `.get`
default 0 when the key is missing is folded into the value). -/
def stage_verdict (ignore_linearity_fail : Bool) (no_linearity_limit : ℚ)
    (metrics : Option ℚ) : String :=
  match metrics with
  | some nl =>
    if no_linearity_limit < nl then
      if ignore_linearity_fail then "PASS (Ignored)" else "FAIL"
    else "PASS"
  | none => "FAIL"

/-- The stage loop of `CPTestRunner.run_stage`/`on_stage_finished`
(src/cp_test/test_logic.py lines 127-222) over the list of remaining stage
indices (`current_stage` runs 1..7; the `QTimer` chaining is modelled as
direct recursion).  Each processed stage is appended to `stages_run`; a falsy
metrics outcome sets `Final_Result` to FAIL before the stage-1 check; a FAIL
verdict on stage 1 stops the loop with reason `Stage1_Fail`; after the last
stage a still-PENDING `Final_Result` becomes PASS.  Runs in which the
config/param/worker steps raise (aborting with other reasons) are outside
this model. -/
def run_stages (ignore : Bool) (lim : ℚ) (metrics : ℕ → Option ℚ) :
    List ℕ → CPTestState → CPTestState
  | [], st =>
    if st.final_result = "PENDING" then { st with final_result := "PASS" } else st
  | i :: rest, st =>
    let st1 := { st with stages_run := st.stages_run ++ [i] }
    let r := stage_verdict ignore lim (metrics i)
    let st2 := if (metrics i).isNone then { st1 with final_result := "FAIL" } else st1
    let st3 := { st2 with stage_results := st2.stage_results ++ [(i, r)] }
    if i = 1 ∧ r = "FAIL" then
      { st3 with final_result := "FAIL", fail_reason := "Stage1_Fail" }
    else run_stages ignore lim metrics rest st3

/-- The seven stage indices of a per-site run (`max_stages = 7`). -/
def cp_stages : List ℕ := [1, 2, 3, 4, 5, 6, 7]

/-- Embeds one per-site CP test run (src/cp_test/test_logic.py):
`on_power_on_finished` records the power check outcome and either aborts with
`Power_Limit` (when the abort policy is on and the check failed), downgrades
the recorded result to FAIL (Ignored) and continues (policy off), or goes
straight to the stages.  `power_status` is the first component of
`check_power_limits` and `metrics` the per-stage scan outcome as in
`stage_verdict`. -/
def run_cp_test (abort_on_power_fail ignore : Bool) (lim : ℚ)
    (power_status : String) (metrics : ℕ → Option ℚ) : CPTestState :=
  let st0 : CPTestState :=
    { final_result := "PENDING", fail_reason := "",
      power_check_result := power_status, stages_run := [], stage_results := [] }
  if power_status = "FAIL" then
    if abort_on_power_fail then
      { st0 with final_result := "FAIL", fail_reason := "Power_Limit" }
    else
      run_stages ignore lim metrics cp_stages
        { st0 with power_check_result := "FAIL (Ignored)" }
  else run_stages ignore lim metrics cp_stages st0

/-- One item of the power-on configuration list (`Power_on_config.yaml`).
A `none` field models a missing dictionary key: the source's
`try: item['instrument'] ...` catches the `KeyError` and skips the item. -/
structure PowerConfigItem where
  instrument : Option String
  channel : Option ℤ
  voltage : Option ℚ
  current : Option ℚ
deriving DecidableEq

/-- One record of the power-limit configuration (`Power_limit_config.yaml`).
A `none` `instrument`/`channel` models a missing or unparsable key (matched
against nothing, or skipped); a `none` `min_current`/`max_current` models the
source default `float('-inf')`/`float('inf')`, i.e. no bound. -/
structure PowerLimitItem where
  instrument : Option String
  channel : Option ℤ
  min_current : Option ℚ
  max_current : Option ℚ
deriving DecidableEq

/-- The bound test `min_c <= measured_val <= max_c` with the infinite
defaults of a missing bound. -/
def within_limits (measured : ℚ) (lim : PowerLimitItem) : Bool :=
  (match lim.min_current with
   | none => true
   | some m => decide (m ≤ measured)) &&
  (match lim.max_current with
   | none => true
   | some m => decide (measured ≤ m))

/-- Embeds `PowerTestLogic._check_limit` (src/core/test_logic.py lines
112-122): the first limit record matching the measured `(instrument,
channel)` pair decides PASS/FAIL; with no matching record the status is
NO_LIMIT. -/
def check_limit (dp_name : String) (ch : ℤ) (measured : ℚ) :
    List PowerLimitItem → String
  | [] => "NO_LIMIT"
  | lim :: rest =>
    if lim.instrument = some dp_name ∧ lim.channel = some ch then
      if within_limits measured lim then "PASS" else "FAIL"
    else check_limit dp_name ch measured rest

/-- The instrument registry and hardware as the power sequence observes them:
whether an alias is registered, whether `connect()` succeeds on it, and the
current `measure_current` returns. -/
structure PowerEnv where
  found : String → Bool
  connect_ok : String → Bool
  measure : String → ℤ → ℚ

/-- The hardware actions the power sequence can perform on an instrument. -/
inductive PowerAction where
  | set_channel : String → ℤ → ℚ → ℚ → PowerAction
  | output_on : String → ℤ → PowerAction
  | measure_current : String → ℤ → PowerAction
  | limit_check : String → ℤ → String → PowerAction
  | output_off : String → ℤ → PowerAction
deriving DecidableEq

/-- Whether an action reads a current or checks it against limits. -/
def is_measurement : PowerAction → Bool
  | PowerAction.measure_current _ _ => true
  | PowerAction.limit_check _ _ _ => true
  | _ => false

/-- One iteration of the `run_power_sequence` loop body (src/core/test_logic.py
lines 59-104) on one configuration item: returns the updated connection
state, the actions performed, and the item if it was processed (not skipped
for a missing key, an unregistered alias, or a failed connect).  In ON mode
the item is configured, switched on, its current measured and checked; in any
other mode the channel is only switched off. -/
def power_step (env : PowerEnv) (mode : String) (limits : List PowerLimitItem)
    (connected : String → Bool) (item : PowerConfigItem) :
    (String → Bool) × List PowerAction × Option PowerConfigItem :=
  match item.instrument, item.channel, item.voltage, item.current with
  | some name, some ch, some volt, some curr =>
    if env.found name then
      if connected name || env.connect_ok name then
        let connected2 := fun a => if a = name then true else connected a
        let acts :=
          if mode = "ON" then
            [PowerAction.set_channel name ch volt curr,
             PowerAction.output_on name ch,
             PowerAction.measure_current name ch,
             PowerAction.limit_check name ch
               (check_limit name ch (env.measure name ch) limits)]
          else [PowerAction.output_off name ch]
        (connected2, acts, some item)
      else (connected, [], none)
    else (connected, [], none)
  | _, _, _, _ => (connected, [], none)

/-- Folds `power_step` over the configuration items, collecting the action
trace and the processed items in order. -/
def power_run (env : PowerEnv) (mode : String) (limits : List PowerLimitItem) :
    List PowerConfigItem → (String → Bool) → List PowerAction × List PowerConfigItem
  | [], _ => ([], [])
  | item :: rest, connected =>
    let s := power_step env mode limits connected item
    let t := power_run env mode limits rest s.1
    (s.2.1 ++ t.1, (s.2.2).toList ++ t.2)

/-- Embeds `PowerTestLogic.run_power_sequence` (src/core/test_logic.py lines
40-110) for a run in which the stop flag is never set: the configuration list
is reversed in OFF mode, the limit list is loaded only in ON mode, and the
loop of `power_step` runs over every item. -/
def run_power_sequence (env : PowerEnv) (mode : String)
    (configs : List PowerConfigItem) (limits : List PowerLimitItem)
    (connected : String → Bool) : List PowerAction × List PowerConfigItem :=
  if configs = [] then ([], [])
  else
    let ordered := if mode = "OFF" then configs.reverse else configs
    let lims := if mode = "ON" then limits else []
    power_run env mode lims ordered connected

/-- Whether a configuration item gets processed rather than skipped: all four
keys present, alias registered, and the instrument connected or connectable. -/
def processable (env : PowerEnv) (connected : String → Bool)
    (item : PowerConfigItem) : Bool :=
  match item.instrument, item.channel, item.voltage, item.current with
  | some name, some _, some _, some _ =>
    env.found name && (connected name || env.connect_ok name)
  | _, _, _, _ => false

/-- The registry and hardware as `CPTestRunner.check_power_limits` observes
them: whether an alias is registered and connected, and the outcome of
`measure_current` (`none` models a raised exception). -/
structure CPPowerEnv where
  found_connected : String → Bool
  measure : String → ℤ → Option ℚ

/-- One iteration of the `CPTestRunner.check_power_limits` loop
(src/cp_test/test_logic.py lines 102-123) on the accumulator
`(overall_status, max_current_measured)`: records missing or unparsable
fields and unavailable instruments are skipped, a raised measurement sets
FAIL, an out-of-bounds measurement sets FAIL, and the maximum measured
current is tracked. -/
def cp_check_step (env : CPPowerEnv) (acc : String × ℚ) (lim : PowerLimitItem) :
    String × ℚ :=
  match lim.instrument, lim.channel with
  | some name, some ch =>
    if env.found_connected name then
      match env.measure name ch with
      | some meas =>
        let maxc := if acc.2 < meas then meas else acc.2
        if within_limits meas lim then (acc.1, maxc) else ("FAIL", maxc)
      | none => ("FAIL", acc.2)
    else acc
  | _, _ => acc

/-- Embeds `CPTestRunner.check_power_limits` (src/cp_test/test_logic.py lines
93-125): `(PASS, 0.0)` when no limit is configured, otherwise the fold of
`cp_check_step` over the limit records starting from `(PASS, 0.0)`. -/
def check_power_limits (env : CPPowerEnv) (limits : List PowerLimitItem) :
    String × ℚ :=
  if limits = [] then ("PASS", 0)
  else limits.foldl (cp_check_step env) ("PASS", 0)

/-- A limit record that can be blamed for an aggregate FAIL: its instrument
and channel are present, the instrument is available, and measuring it either
raises or yields a value outside the record's bounds. -/
def limit_blamed (env : CPPowerEnv) (lim : PowerLimitItem) : Bool :=
  match lim.instrument, lim.channel with
  | some name, some ch =>
    env.found_connected name &&
      (match env.measure name ch with
       | none => true
       | some m => !(within_limits m lim))
  | _, _ => false

/-- Whether a limit record matches a measured `(instrument, channel)` pair,
as tested by `_check_limit`. -/
def limit_matches (dp_name : String) (ch : ℤ) (lim : PowerLimitItem) : Bool :=
  decide (lim.instrument = some dp_name) && decide (lim.channel = some ch)

/-- The metrics `calculate_linearity_metrics` returns on the perfectly linear
two-point series x = [0, 1], y = [0, 2]. -/
def exampleMetrics : LinearityMetrics :=
  { gain := 2, offset := 0, inl := [0, 0], dnl := [0, 0], lsb_ideal := 2,
    nonlinearity_pct := 0, max_inl := 0, max_dnl := 0 }

/-- A per-site run in which every stage except stage 2 produces metrics with
nonlinearity 0 and stage 2 produces none (its result file is missing or
unparsable). -/
def stage2_missing_metrics : ℕ → Option ℚ := fun i => if i = 2 then none else some 0

/-- A per-site run in which stage 1 produces no metrics. -/
def stage1_missing_metrics : ℕ → Option ℚ := fun i => if i = 1 then none else some 0

/-- A per-site run in which every stage produces metrics with nonlinearity 0. -/
def all_pass_metrics : ℕ → Option ℚ := fun _ => some 0

/-- A registry in which every alias is connected and every measurement
returns 5 A. -/
def cpEnvFail : CPPowerEnv :=
  { found_connected := fun _ => true, measure := fun _ _ => some 5 }

/-- A limit record for DP1 channel 1 bounding the current to [0, 1] A. -/
def cpLimitFail : PowerLimitItem :=
  { instrument := some "DP1", channel := some 1, min_current := some 0,
    max_current := some 1 }

/-- A power environment in which every alias is registered, connects, and
measures 0 A. -/
def powerEnvEx : PowerEnv :=
  { found := fun _ => true, connect_ok := fun _ => true, measure := fun _ _ => 0 }

/-- A complete power configuration item for DP1 channel 1. -/
def powerItemEx : PowerConfigItem :=
  { instrument := some "DP1", channel := some 1, voltage := some 5,
    current := some 1 }

/-- C6: an input pair with fewer than 2 points makes the linearity analyzer
return no result (`None`).  In the source the early return precedes every
division site (`/ lsb_ideal`, `/ fsr`), so no division fault can be raised
on such inputs. -/
theorem linearity_insufficient_data (x y : List ℚ) (h : x.length < 2) :
    calculate_linearity_metrics x y = none := by
  simp [calculate_linearity_metrics, h]

theorem linearity_insufficient_data_witness :
    ([(5 : ℚ)] : List ℚ).length < 2 ∧
      calculate_linearity_metrics [(5 : ℚ)] [] = none :=
  ⟨by norm_num, linearity_insufficient_data [(5 : ℚ)] [] (by norm_num)⟩

/-- C7: whenever the analyzer accepts its input (N ≥ 2) and returns metrics,
the reported `lsb_ideal` (also the divisor of the INL and DNL computations)
is not zero: a computed value of 0 is replaced by the epsilon `1e-9`. -/
theorem lsb_ideal_nonzero (x y : List ℚ) (m : LinearityMetrics)
    (h : calculate_linearity_metrics x y = some m) : m.lsb_ideal ≠ 0 := by
  by_cases hl : x.length < 2
  · simp [calculate_linearity_metrics, hl] at h
  · simp only [calculate_linearity_metrics, if_neg hl, Option.some.injEq] at h
    subst h
    simp only
    split
    · split
      · norm_num
      · next h0 => exact h0
    · norm_num

/-- For a scan of positive length the reported progress is the floor of the
exact percentage: the argument of the truncation is nonnegative. -/
lemma scan_progress_eq (n j : ℕ) (hn : 0 < n) :
    scan_progress n j = ⌊(100 * ((j : ℚ) + 1)) / (n : ℚ)⌋ := by
  unfold scan_progress pyInt
  have hnum : (0 : ℚ) ≤ ((j : ℚ) + 1) / (n : ℚ) * 100 := by positivity
  rw [if_pos hnum]
  congr 1
  ring

/-- C8 counterexample: after the second point (k = 1) of a 3-point scan the
code reports `int(2/3*100) = 66`, while the claimed `round(100*2/3)` is 67. -/
theorem scan_progress_round_counterexample :
    scan_progress 3 1 = 66 ∧
      round ((100 * ((1 : ℚ) + 1)) / 3) = 67 ∧ (66 : ℤ) ≠ 67 := by
  refine ⟨?_, ?_, by decide⟩
  · norm_num [scan_progress, pyInt]
  · norm_num [round_eq]

/-- C8 (amended): the progress reported after completing the 0-based point k
of a scan of n points is `⌊100*(k+1)/n⌋` (truncation by Python `int`, not
rounding); every reported value is an integer in [0, 100] and the reports
within one scan are monotonically non-decreasing. -/
theorem scan_progress_floor (n k : ℕ) (hk : k < n) :
    scan_progress n k = ⌊(100 * ((k : ℚ) + 1)) / (n : ℚ)⌋ ∧
    0 ≤ scan_progress n k ∧ scan_progress n k ≤ 100 ∧
    ∀ j, j ≤ k → scan_progress n j ≤ scan_progress n k := by
  have hn : 0 < n := lt_of_le_of_lt (Nat.zero_le k) hk
  have hnQ : (0 : ℚ) < (n : ℚ) := by exact_mod_cast hn
  refine ⟨scan_progress_eq n k hn, ?_, ?_, ?_⟩
  · rw [scan_progress_eq n k hn]
    apply Int.floor_nonneg.mpr
    positivity
  · rw [scan_progress_eq n k hn]
    have hkn : ((k : ℚ) + 1) ≤ (n : ℚ) := by exact_mod_cast hk
    have harg : (100 * ((k : ℚ) + 1)) / (n : ℚ) ≤ 100 := by
      rw [div_le_iff₀ hnQ]
      nlinarith
    calc ⌊(100 * ((k : ℚ) + 1)) / (n : ℚ)⌋ ≤ ⌊(100 : ℚ)⌋ := Int.floor_le_floor harg
      _ = 100 := by norm_num
  · intro j hj
    rw [scan_progress_eq n j hn, scan_progress_eq n k hn]
    apply Int.floor_le_floor
    have hjk : (j : ℚ) ≤ (k : ℚ) := by exact_mod_cast hj
    gcongr

theorem scan_progress_floor_witness :
    (1 : ℕ) < 3 ∧
      scan_progress 3 1 = ⌊(100 * (((1 : ℕ) : ℚ) + 1)) / ((3 : ℕ) : ℚ)⌋ :=
  ⟨by norm_num, (scan_progress_floor 3 1 (by norm_num)).1⟩

/-- C3 counterexample: for range 2.5 V (any of the configured ranges) there
are voltages where truncation and rounding differ; at R = 10, v = 0.0001 the
code computes `int(32767.8277...) = 32767` while the claimed
`round(...) = 32768`. -/
theorem dac_code_round_counterexample :
    calculate_dac_code 10 (1 / 10000) = 32767 ∧
      round (((10 : ℚ) + 1 / 10000) * 65535 / (2 * 10)) = 32768 ∧
      (32767 : ℤ) ≠ 32768 := by
  refine ⟨?_, ?_, by decide⟩
  · norm_num [calculate_dac_code, pyInt]
  · norm_num [round_eq]

/-- C3 (amended): for every positive symmetric range R (in particular the
configured ranges 2.5, 5, 10, 20) the conversion behaves like clamping v to
[-R, R] and then taking the FLOOR (Python `int` truncation, not `round`) of
`(R + v) * 65535 / (2R)`, clamped to [0, 65535].  The source does not clamp
v up front (its unipolar fallback branch is unreachable for positive R), but
the final code clamp makes the two formulations agree. -/
theorem dac_code_floor_clamp (R v : ℚ) (hR : 0 < R) :
    calculate_dac_code R v =
      max 0 (min ⌊(R + max (-R) (min v R)) * 65535 / (2 * R)⌋ 65535) := by
  have h2R : (0 : ℚ) < 2 * R := by linarith
  have h2R' : (2 : ℚ) * R ≠ 0 := ne_of_gt h2R
  simp only [calculate_dac_code]
  have hbounds :
      (if ¬(-R ≤ v ∧ v ≤ R) then
        if 0 ≤ v ∧ v ≤ R then ((0 : ℚ), R) else (-R, R)
      else (-R, R)) = (-R, R) := by
    by_cases hc : -R ≤ v ∧ v ≤ R
    · rw [if_neg (not_not_intro hc)]
    · rw [if_pos hc, if_neg]
      intro hu
      exact hc ⟨le_trans (by linarith) hu.1, hu.2⟩
  rw [hbounds]
  simp only
  rw [if_neg (by intro h; rw [sub_neg_eq_add] at h; linarith)]
  have hq : (v - -R) / (R - -R) * ((2 : ℚ) ^ 16 - 1) = (v + R) * 65535 / (2 * R) := by
    have e1 : R - -R = 2 * R := by ring
    rw [e1]
    norm_num
    ring
  rw [hq]
  by_cases hub : v ≤ R
  · by_cases hlb : -R ≤ v
    · rw [min_eq_left hub, max_eq_right hlb]
      rw [show (v + R) * 65535 / (2 * R) = (R + v) * 65535 / (2 * R) by ring]
      rw [pyInt, if_pos (div_nonneg (mul_nonneg (by linarith) (by norm_num)) h2R.le)]
    · push_neg at hlb
      rw [min_eq_left hub, max_eq_left (le_of_lt hlb)]
      rw [show (R + -R) * 65535 / (2 * R) = 0 from by ring]
      have hqneg : (v + R) * 65535 / (2 * R) < 0 :=
        div_neg_of_neg_of_pos (mul_neg_of_neg_of_pos (by linarith) (by norm_num)) h2R
      rw [pyInt, if_neg (not_le.mpr hqneg)]
      have hc0 : ⌈(v + R) * 65535 / (2 * R)⌉ ≤ 0 :=
        Int.ceil_le.mpr (by exact_mod_cast hqneg.le)
      rw [min_eq_left (le_trans hc0 (by norm_num)), max_eq_left hc0]
      norm_num
  · push_neg at hub
    rw [min_eq_right (le_of_lt hub), max_eq_right (by linarith : -R ≤ R)]
    rw [show (R + R) * 65535 / (2 * R) = 65535 from by field_simp; ring]
    have hq65 : (65535 : ℚ) ≤ (v + R) * 65535 / (2 * R) := by
      rw [le_div_iff₀ h2R]
      nlinarith
    rw [pyInt, if_pos (le_trans (by norm_num) hq65)]
    have hf : (65535 : ℤ) ≤ ⌊(v + R) * 65535 / (2 * R)⌋ := by
      apply Int.le_floor.mpr
      exact_mod_cast hq65
    rw [min_eq_right hf]
    norm_num

theorem dac_code_floor_clamp_witness :
    (0 : ℚ) < 5 / 2 ∧
      calculate_dac_code (5 / 2) 3 =
        max 0 (min ⌊((5 / 2 : ℚ) + max (-(5 / 2)) (min (3 : ℚ) (5 / 2))) * 65535 /
          (2 * (5 / 2))⌋ 65535) :=
  ⟨by norm_num, dac_code_floor_clamp (5 / 2) 3 (by norm_num)⟩

theorem lsb_ideal_nonzero_witness :
    calculate_linearity_metrics [0, 1] [0, 2] = some exampleMetrics ∧
      exampleMetrics.lsb_ideal ≠ 0 :=
  ⟨by norm_num [calculate_linearity_metrics, lstsqFit, listMean, listDiff,
      listMax, listMin, dnlList, exampleMetrics],
   lsb_ideal_nonzero [0, 1] [0, 2] exampleMetrics
     (by norm_num [calculate_linearity_metrics, lstsqFit, listMean, listDiff,
        listMax, listMin, dnlList, exampleMetrics])⟩

/-- C2: for every stage i in [1,7] the scan parameters are
start = -amplitude, step = 2*amplitude/(points-1) and points = 101, where
amplitude is the spec's clamp(0.25 / 10^(gainDb(i)/20), 0, 0.5) over the
fixed gain table (the lower clamp bound 0 never binds since the power is
positive); for i = 3 this yields start = -0.25, step = 0.005, points = 101. -/
theorem scan_params_clamped (i : ℕ) (h1 : 1 ≤ i) (h7 : i ≤ 7) :
    calculate_scan_params i =
      (-(scanAmplitudeSpec i), 2 * scanAmplitudeSpec i / ((101 : ℝ) - 1), 101) ∧
    (i = 3 → calculate_scan_params i = (-(1 / 4 : ℝ), 1 / 200, 101)) := by
  have hpos : (0 : ℝ) < (1 / 4) / (10 : ℝ) ^ (gain_map i / 20) :=
    div_pos (by norm_num) (Real.rpow_pos_of_pos (by norm_num) _)
  have hspec : scanAmplitudeSpec i =
      if VIN_SAFETY_LIMIT < (1 / 4) / (10 : ℝ) ^ (gain_map i / 20) then VIN_SAFETY_LIMIT
      else (1 / 4) / (10 : ℝ) ^ (gain_map i / 20) := by
    unfold scanAmplitudeSpec VIN_SAFETY_LIMIT
    rcases le_or_lt ((1 / 4) / (10 : ℝ) ^ (gain_map i / 20)) (1 / 2) with hle | hlt
    · rw [min_eq_left hle, max_eq_right hpos.le, if_neg (not_lt.mpr hle)]
    · rw [min_eq_right hlt.le, if_pos hlt, max_eq_right (by norm_num)]
  constructor
  · simp only [calculate_scan_params]
    rw [hspec]
    norm_num
  · intro h3
    subst h3
    simp only [calculate_scan_params, gain_map]
    norm_num [Real.rpow_zero, VIN_SAFETY_LIMIT]

theorem scan_params_clamped_witness :
    ((1 : ℕ) ≤ 3 ∧ (3 : ℕ) ≤ 7) ∧
      calculate_scan_params 3 = (-(1 / 4 : ℝ), 1 / 200, 101) :=
  ⟨⟨by norm_num, by norm_num⟩,
   (scan_params_clamped 3 (by norm_num) (by norm_num)).2 rfl⟩

/-- The empty stage list finalizes the verdict; a cons processes one stage.
Unfolding equation used to step the stage loop once. -/
lemma run_stages_cons (ignore : Bool) (lim : ℚ) (metrics : ℕ → Option ℚ)
    (i : ℕ) (rest : List ℕ) (st : CPTestState) :
    run_stages ignore lim metrics (i :: rest) st =
      (let st1 := { st with stages_run := st.stages_run ++ [i] }
       let r := stage_verdict ignore lim (metrics i)
       let st2 := if (metrics i).isNone then { st1 with final_result := "FAIL" } else st1
       let st3 := { st2 with stage_results := st2.stage_results ++ [(i, r)] }
       if i = 1 ∧ r = "FAIL" then
         { st3 with final_result := "FAIL", fail_reason := "Stage1_Fail" }
       else run_stages ignore lim metrics rest st3) := rfl

/-- Once `Final_Result` is FAIL, the remaining stages (none of which is
stage 1) never change it. -/
lemma run_stages_final_fail (ignore : Bool) (lim : ℚ) (metrics : ℕ → Option ℚ) :
    ∀ (l : List ℕ) (st : CPTestState), 1 ∉ l → st.final_result = "FAIL" →
      (run_stages ignore lim metrics l st).final_result = "FAIL" := by
  intro l
  induction l with
  | nil =>
    intro st _ hst
    simp [run_stages, hst]
  | cons i rest ih =>
    intro st hl hst
    simp only [List.mem_cons, not_or] at hl
    obtain ⟨hi, hrest⟩ := hl
    simp only [run_stages]
    rw [if_neg (by rintro ⟨h1, _⟩; exact hi h1.symm)]
    apply ih _ hrest
    by_cases h : (metrics i).isNone <;> simp [h, hst]

/-- From a PENDING state, running stages not containing stage 1 yields PASS
exactly when every one of them produced metrics, else FAIL. -/
lemma run_stages_final_pending (ignore : Bool) (lim : ℚ) (metrics : ℕ → Option ℚ) :
    ∀ (l : List ℕ) (st : CPTestState), 1 ∉ l → st.final_result = "PENDING" →
      (run_stages ignore lim metrics l st).final_result =
        if l.all (fun i => (metrics i).isSome) then "PASS" else "FAIL" := by
  intro l
  induction l with
  | nil =>
    intro st _ hst
    simp [run_stages, hst]
  | cons i rest ih =>
    intro st hl hst
    simp only [List.mem_cons, not_or] at hl
    obtain ⟨hi, hrest⟩ := hl
    simp only [run_stages]
    rw [if_neg (by rintro ⟨h1, _⟩; exact hi h1.symm)]
    cases hm : metrics i with
    | none =>
      rw [run_stages_final_fail ignore lim metrics rest _ hrest (by simp [hm, hst])]
      simp [List.all_cons, hm]
    | some nl =>
      rw [ih _ hrest (by simp [hm, hst])]
      simp [List.all_cons, hm]

/-- The stage loop never touches the recorded power check result. -/
lemma run_stages_power_check (ignore : Bool) (lim : ℚ) (metrics : ℕ → Option ℚ) :
    ∀ (l : List ℕ) (st : CPTestState),
      (run_stages ignore lim metrics l st).power_check_result =
        st.power_check_result := by
  intro l
  induction l with
  | nil =>
    intro st
    by_cases h : st.final_result = "PENDING" <;> simp [run_stages, h]
  | cons i rest ih =>
    intro st
    simp only [run_stages]
    by_cases hc : i = 1 ∧ stage_verdict ignore lim (metrics i) = "FAIL"
    · rw [if_pos hc]
      by_cases h : (metrics i).isNone <;> simp [h]
    · rw [if_neg hc, ih]
      by_cases h : (metrics i).isNone <;> simp [h]

/-- The stage loop only appends to the list of executed stages. -/
lemma run_stages_mem_stages_run (ignore : Bool) (lim : ℚ) (metrics : ℕ → Option ℚ) :
    ∀ (l : List ℕ) (st : CPTestState) (x : ℕ), x ∈ st.stages_run →
      x ∈ (run_stages ignore lim metrics l st).stages_run := by
  intro l
  induction l with
  | nil =>
    intro st x hx
    by_cases h : st.final_result = "PENDING" <;> simp [run_stages, h, hx]
  | cons i rest ih =>
    intro st x hx
    simp only [run_stages]
    by_cases hc : i = 1 ∧ stage_verdict ignore lim (metrics i) = "FAIL"
    · rw [if_pos hc]
      by_cases h : (metrics i).isNone <;> simp [h, List.mem_append, hx]
    · rw [if_neg hc]
      apply ih
      by_cases h : (metrics i).isNone <;> simp [h, List.mem_append, hx]

/-- The first stage of the loop always executes (its scan is started). -/
lemma run_stages_head_mem (ignore : Bool) (lim : ℚ) (metrics : ℕ → Option ℚ)
    (i : ℕ) (rest : List ℕ) (st : CPTestState) :
    i ∈ (run_stages ignore lim metrics (i :: rest) st).stages_run := by
  rw [run_stages_cons]
  simp only
  split
  · cases h : (metrics i).isNone <;> simp [h, List.mem_append]
  · apply run_stages_mem_stages_run
    cases h : (metrics i).isNone <;> simp [h, List.mem_append]

/-- C1 counterexample: with the source constants, a run whose power check
passes, whose stage 1 passes and whose stage 2 yields no metrics (stage
result FAIL) completes all 7 stages yet records Final_Result = FAIL, never
PARTIAL — the claimed PARTIAL verdict for "some stage after stage 1 failed
but the run completed" does not exist in the code. -/
theorem cp_partial_counterexample :
    (run_cp_test ABORT_ON_POWER_FAIL IGNORE_LINEARITY_FAIL NO_LINEARITY_LIMIT
        "PASS" stage2_missing_metrics).final_result = "FAIL" ∧
    (run_cp_test ABORT_ON_POWER_FAIL IGNORE_LINEARITY_FAIL NO_LINEARITY_LIMIT
        "PASS" stage2_missing_metrics).final_result ≠ "PARTIAL" ∧
    (run_cp_test ABORT_ON_POWER_FAIL IGNORE_LINEARITY_FAIL NO_LINEARITY_LIMIT
        "PASS" stage2_missing_metrics).stage_results =
      [(1, "PASS"), (2, "FAIL"), (3, "PASS"), (4, "PASS"), (5, "PASS"),
        (6, "PASS"), (7, "PASS")] := by
  norm_num [run_cp_test, run_stages, cp_stages, stage_verdict,
    ABORT_ON_POWER_FAIL, IGNORE_LINEARITY_FAIL, NO_LINEARITY_LIMIT,
    stage2_missing_metrics]
  decide

/-- C1 (amended): with the source constants (ABORT_ON_POWER_FAIL = False,
IGNORE_LINEARITY_FAIL = True) the final verdict of a per-site run is PASS
exactly when every stage produced metrics, and FAIL otherwise (stage 1
missing metrics aborts with Stage1_Fail, a later missing-metrics stage
forces FAIL but the run continues); PARTIAL is never produced and a failed
power check does not influence the verdict. -/
theorem cp_final_verdict (power : String) (metrics : ℕ → Option ℚ) :
    (run_cp_test ABORT_ON_POWER_FAIL IGNORE_LINEARITY_FAIL NO_LINEARITY_LIMIT
        power metrics).final_result =
      if cp_stages.all (fun i => (metrics i).isSome) then "PASS" else "FAIL" := by
  have hrest : (1 : ℕ) ∉ [2, 3, 4, 5, 6, 7] := by decide
  have hmain : ∀ st : CPTestState, st.final_result = "PENDING" →
      (run_stages IGNORE_LINEARITY_FAIL NO_LINEARITY_LIMIT metrics cp_stages
          st).final_result =
        if cp_stages.all (fun i => (metrics i).isSome) then "PASS" else "FAIL" := by
    intro st hst
    rw [show cp_stages = 1 :: [2, 3, 4, 5, 6, 7] from rfl, run_stages_cons]
    cases hm : metrics 1 with
    | none =>
      simp only [hm, stage_verdict, Option.isNone_none, if_true]
      simp [cp_stages, hm]
    | some nl =>
      have hr : stage_verdict IGNORE_LINEARITY_FAIL NO_LINEARITY_LIMIT
          (metrics 1) ≠ "FAIL" := by
        rw [hm]
        simp only [stage_verdict, IGNORE_LINEARITY_FAIL]
        by_cases h : NO_LINEARITY_LIMIT < nl <;> simp [h]
      simp only [hm, Option.isNone_some, Bool.false_eq_true, if_false]
      rw [if_neg (by rintro ⟨_, h⟩; exact hr (hm ▸ h))]
      rw [run_stages_final_pending IGNORE_LINEARITY_FAIL NO_LINEARITY_LIMIT
        metrics _ _ hrest (by simp [hst])]
      simp [cp_stages, hm]
  unfold run_cp_test
  by_cases hp : power = "FAIL"
  · rw [if_pos hp]
    simp only [ABORT_ON_POWER_FAIL, Bool.false_eq_true, if_false]
    exact hmain _ rfl
  · rw [if_neg hp]
    exact hmain _ rfl

/-- C4: if the stage-1 verdict is FAIL, the per-site run aborts immediately:
Final_Result = FAIL, Fail_Reason = Stage1_Fail, only stage 1 ever started
(stages 2..7 never execute) and only its result is recorded. -/
theorem stage1_fail_aborts (power : String) (metrics : ℕ → Option ℚ)
    (h : stage_verdict IGNORE_LINEARITY_FAIL NO_LINEARITY_LIMIT (metrics 1) =
      "FAIL") :
    run_cp_test ABORT_ON_POWER_FAIL IGNORE_LINEARITY_FAIL NO_LINEARITY_LIMIT
        power metrics =
      { final_result := "FAIL", fail_reason := "Stage1_Fail",
        power_check_result := if power = "FAIL" then "FAIL (Ignored)" else power,
        stages_run := [1], stage_results := [(1, "FAIL")] } := by
  have hm : metrics 1 = none := by
    cases hm2 : metrics 1 with
    | none => rfl
    | some nl =>
      rw [hm2] at h
      simp only [stage_verdict, IGNORE_LINEARITY_FAIL] at h
      by_cases hl : NO_LINEARITY_LIMIT < nl <;> simp [hl] at h
  have hrun : ∀ st : CPTestState,
      run_stages IGNORE_LINEARITY_FAIL NO_LINEARITY_LIMIT metrics cp_stages st =
        { st with
          final_result := "FAIL", fail_reason := "Stage1_Fail",
          stages_run := st.stages_run ++ [1],
          stage_results := st.stage_results ++ [(1, "FAIL")] } := by
    intro st
    rw [show cp_stages = 1 :: [2, 3, 4, 5, 6, 7] from rfl, run_stages_cons]
    simp [hm, stage_verdict]
  unfold run_cp_test
  by_cases hp : power = "FAIL"
  · rw [if_pos hp]
    simp only [ABORT_ON_POWER_FAIL, Bool.false_eq_true, if_false]
    rw [hrun]
    simp [hp]
  · rw [if_neg hp]
    rw [hrun]
    simp [hp]

theorem stage1_fail_aborts_witness :
    stage_verdict IGNORE_LINEARITY_FAIL NO_LINEARITY_LIMIT
        (stage1_missing_metrics 1) = "FAIL" ∧
      run_cp_test ABORT_ON_POWER_FAIL IGNORE_LINEARITY_FAIL NO_LINEARITY_LIMIT
          "PASS" stage1_missing_metrics =
        { final_result := "FAIL", fail_reason := "Stage1_Fail",
          power_check_result := if "PASS" = "FAIL" then "FAIL (Ignored)" else "PASS",
          stages_run := [1], stage_results := [(1, "FAIL")] } :=
  ⟨by norm_num [stage_verdict, stage1_missing_metrics],
   stage1_fail_aborts "PASS" stage1_missing_metrics
     (by norm_num [stage_verdict, stage1_missing_metrics])⟩

/-- C5 counterexample: with the source constant ABORT_ON_POWER_FAIL = False,
a per-site run whose power-limit check returns FAIL does not abort: all 7
stages execute, the final verdict is PASS (when all stages produce metrics)
and the fail reason is not Power_Limit — the claimed AbortOnFail policy is
not in effect. -/
theorem power_fail_ignored_counterexample :
    (run_cp_test ABORT_ON_POWER_FAIL IGNORE_LINEARITY_FAIL NO_LINEARITY_LIMIT
        "FAIL" all_pass_metrics).stages_run = [1, 2, 3, 4, 5, 6, 7] ∧
    (run_cp_test ABORT_ON_POWER_FAIL IGNORE_LINEARITY_FAIL NO_LINEARITY_LIMIT
        "FAIL" all_pass_metrics).final_result = "PASS" ∧
    (run_cp_test ABORT_ON_POWER_FAIL IGNORE_LINEARITY_FAIL NO_LINEARITY_LIMIT
        "FAIL" all_pass_metrics).fail_reason ≠ "Power_Limit" := by
  norm_num [run_cp_test, run_stages, cp_stages, stage_verdict,
    ABORT_ON_POWER_FAIL, IGNORE_LINEARITY_FAIL, NO_LINEARITY_LIMIT,
    all_pass_metrics]
  decide

/-- C5 (amended): the AbortOnFail behaviour exists but only behind the debug
constant: with the flag set, a FAIL power check aborts the run before any
stage with Final_Result = FAIL and Fail_Reason = Power_Limit; the source
value of ABORT_ON_POWER_FAIL is False, under which a FAIL power check is
recorded as FAIL (Ignored) and stage 1 still executes. -/
theorem power_fail_policy (metrics : ℕ → Option ℚ) :
    run_cp_test true IGNORE_LINEARITY_FAIL NO_LINEARITY_LIMIT "FAIL" metrics =
      { final_result := "FAIL", fail_reason := "Power_Limit",
        power_check_result := "FAIL", stages_run := [], stage_results := [] } ∧
    ABORT_ON_POWER_FAIL = false ∧
    (run_cp_test ABORT_ON_POWER_FAIL IGNORE_LINEARITY_FAIL NO_LINEARITY_LIMIT
        "FAIL" metrics).power_check_result = "FAIL (Ignored)" ∧
    1 ∈ (run_cp_test ABORT_ON_POWER_FAIL IGNORE_LINEARITY_FAIL NO_LINEARITY_LIMIT
        "FAIL" metrics).stages_run := by
  refine ⟨by simp [run_cp_test], rfl, ?_, ?_⟩
  · unfold run_cp_test
    rw [if_pos rfl]
    simp only [ABORT_ON_POWER_FAIL, Bool.false_eq_true, if_false]
    rw [run_stages_power_check]
  · unfold run_cp_test
    rw [if_pos rfl]
    simp only [ABORT_ON_POWER_FAIL, Bool.false_eq_true, if_false]
    rw [show cp_stages = 1 :: [2, 3, 4, 5, 6, 7] from rfl]
    exact run_stages_head_mem _ _ _ _ _ _

lemma power_step_fst_or (env : PowerEnv) (mode : String)
    (limits : List PowerLimitItem) (connected : String → Bool)
    (item : PowerConfigItem) (a : String) :
    ((power_step env mode limits connected item).1 a || env.connect_ok a) =
      (connected a || env.connect_ok a) := by
  rcases item with ⟨oi, oc, ov, ocur⟩
  cases oi with
  | none => rfl
  | some name =>
    cases oc with
    | none => rfl
    | some ch =>
      cases ov with
      | none => rfl
      | some volt =>
        cases ocur with
        | none => rfl
        | some curr =>
          simp only [power_step]
          by_cases hf : env.found name = true
          · rw [if_pos hf]
            by_cases hc : (connected name || env.connect_ok name) = true
            · rw [if_pos hc]
              by_cases ha : a = name
              · subst ha
                simp [hc]
              · simp [ha]
            · rw [if_neg hc]
          · rw [if_neg hf]

lemma processable_congr (env : PowerEnv) (c1 c2 : String → Bool)
    (h : ∀ a, (c1 a || env.connect_ok a) = (c2 a || env.connect_ok a)) :
    ∀ it, processable env c1 it = processable env c2 it := by
  intro it
  rcases it with ⟨oi, oc, ov, ocur⟩
  cases oi with
  | none => rfl
  | some name =>
    cases oc with
    | none => rfl
    | some ch =>
      cases ov with
      | none => rfl
      | some volt =>
        cases ocur with
        | none => rfl
        | some curr =>
          simp only [processable]
          cases hf : env.found name
          · simp
          · simp only [Bool.true_and]
            exact h name

lemma power_step_processed (env : PowerEnv) (mode : String)
    (limits : List PowerLimitItem) (connected : String → Bool)
    (item : PowerConfigItem) :
    (power_step env mode limits connected item).2.2 =
      if processable env connected item then some item else none := by
  rcases item with ⟨oi, oc, ov, ocur⟩
  cases oi with
  | none => rfl
  | some name =>
    cases oc with
    | none => rfl
    | some ch =>
      cases ov with
      | none => rfl
      | some volt =>
        cases ocur with
        | none => rfl
        | some curr =>
          simp only [power_step, processable]
          by_cases hf : env.found name = true
          · rw [if_pos hf]
            by_cases hc : (connected name || env.connect_ok name) = true
            · simp [hf, hc]
            · simp [hf, hc]
          · simp [hf]

lemma power_run_snd (env : PowerEnv) (mode : String) (limits : List PowerLimitItem) :
    ∀ (l : List PowerConfigItem) (connected : String → Bool),
      (power_run env mode limits l connected).2 =
        l.filter (fun it => processable env connected it) := by
  intro l
  induction l with
  | nil => intro c; rfl
  | cons item rest ih =>
    intro c
    simp only [power_run]
    rw [ih ((power_step env mode limits c item).1)]
    rw [List.filter_congr
      (fun it _ => processable_congr env _ c (power_step_fst_or env mode limits c item) it)]
    rw [power_step_processed]
    by_cases hb : processable env c item = true
    · simp [hb, List.filter_cons]
    · simp [hb, List.filter_cons]

lemma power_run_no_measure (env : PowerEnv) (mode : String)
    (limits : List PowerLimitItem) (hm : mode ≠ "ON") :
    ∀ (l : List PowerConfigItem) (connected : String → Bool)
      (a : PowerAction), a ∈ (power_run env mode limits l connected).1 →
      is_measurement a = false := by
  intro l
  induction l with
  | nil =>
    intro c a ha
    simp [power_run] at ha
  | cons item rest ih =>
    intro c a ha
    simp only [power_run, List.mem_append] at ha
    rcases ha with ha | ha
    · rcases item with ⟨oi, oc, ov, ocur⟩
      cases oi with
      | none => simp [power_step] at ha
      | some name =>
        cases oc with
        | none => simp [power_step] at ha
        | some ch =>
          cases ov with
          | none => simp [power_step] at ha
          | some volt =>
            cases ocur with
            | none => simp [power_step] at ha
            | some curr =>
              simp only [power_step] at ha
              by_cases hf : env.found name = true
              · rw [if_pos hf] at ha
                by_cases hc : (c name || env.connect_ok name) = true
                · rw [if_pos hc] at ha
                  simp only [if_neg hm, List.mem_singleton] at ha
                  subst ha
                  rfl
                · rw [if_neg hc] at ha
                  simp at ha
              · rw [if_neg hf] at ha
                simp at ha
    · exact ih _ a ha

/-- C9: in OFF mode the power sequence processes exactly the same
configuration items as in ON mode, in exactly the reverse order, and its
action trace contains no current measurement and no limit check. -/
theorem power_off_reverse_no_measure (env : PowerEnv)
    (configs : List PowerConfigItem) (limits : List PowerLimitItem)
    (connected : String → Bool) :
    (run_power_sequence env "OFF" configs limits connected).2 =
      ((run_power_sequence env "ON" configs limits connected).2).reverse ∧
    ∀ a ∈ (run_power_sequence env "OFF" configs limits connected).1,
      is_measurement a = false := by
  constructor
  · unfold run_power_sequence
    by_cases hc : configs = []
    · simp [hc]
    · rw [if_neg hc, if_neg hc]
      simp only [show (("OFF" : String) = "ON") = False by simp,
        show (("OFF" : String) = "OFF") = True by simp,
        show (("ON" : String) = "ON") = True by simp,
        show (("ON" : String) = "OFF") = False by simp, if_true, if_false]
      rw [power_run_snd, power_run_snd, List.filter_reverse]
  · intro a ha
    unfold run_power_sequence at ha
    by_cases hc : configs = []
    · simp [hc] at ha
    · rw [if_neg hc] at ha
      exact power_run_no_measure env "OFF" _ (by decide) _ _ a ha

lemma cp_check_step_fail (env : CPPowerEnv) (acc : String × ℚ)
    (lim : PowerLimitItem) (h : (cp_check_step env acc lim).1 = "FAIL") :
    acc.1 = "FAIL" ∨ limit_blamed env lim = true := by
  rcases lim with ⟨oi, oc, omin, omax⟩
  cases oi with
  | none => exact Or.inl h
  | some name =>
    cases oc with
    | none => exact Or.inl h
    | some ch =>
      simp only [cp_check_step] at h
      by_cases hf : env.found_connected name = true
      · rw [if_pos hf] at h
        cases hm : env.measure name ch with
        | none =>
          right
          simp [limit_blamed, hf, hm]
        | some m =>
          rw [hm] at h
          cases hw : within_limits m ⟨some name, some ch, omin, omax⟩ with
          | true =>
            simp only [hw, if_true] at h
            exact Or.inl h
          | false =>
            right
            simp [limit_blamed, hf, hm, hw]
      · rw [if_neg hf] at h
        exact Or.inl h

lemma cp_fold_fail (env : CPPowerEnv) :
    ∀ (l : List PowerLimitItem) (acc : String × ℚ),
      (l.foldl (cp_check_step env) acc).1 = "FAIL" →
      acc.1 = "FAIL" ∨ l.any (limit_blamed env) = true := by
  intro l
  induction l with
  | nil => intro acc h; exact Or.inl h
  | cons lim rest ih =>
    intro acc h
    simp only [List.foldl_cons] at h
    rcases ih _ h with h1 | h2
    · rcases cp_check_step_fail env acc lim h1 with h3 | h3
      · exact Or.inl h3
      · right
        simp [List.any_cons, h3]
    · right
      simp [List.any_cons, h2]

/-- C10: a measured channel with no matching limit record gets the status
NO_LIMIT from the per-channel check — a third status distinct from both PASS
and FAIL; the aggregate per-site power check can only return FAIL because of
a configured limit record (so a channel without one can never cause it); and
the power sequence processes the same items whatever the limit list is. -/
theorem no_limit_channel_harmless :
    (∀ (name : String) (ch : ℤ) (meas : ℚ) (limits : List PowerLimitItem),
      limits.all (fun lim => !(limit_matches name ch lim)) = true →
      check_limit name ch meas limits = "NO_LIMIT" ∧
        ("NO_LIMIT" : String) ≠ "PASS" ∧ ("NO_LIMIT" : String) ≠ "FAIL") ∧
    (∀ (env : CPPowerEnv) (limits : List PowerLimitItem),
      (check_power_limits env limits).1 = "FAIL" →
      limits.any (limit_blamed env) = true) ∧
    (∀ (env : PowerEnv) (mode : String) (configs : List PowerConfigItem)
      (limits limits2 : List PowerLimitItem) (connected : String → Bool),
      (run_power_sequence env mode configs limits connected).2 =
        (run_power_sequence env mode configs limits2 connected).2) := by
  refine ⟨?_, ?_, ?_⟩
  · intro name ch meas limits hall
    refine ⟨?_, by decide, by decide⟩
    induction limits with
    | nil => rfl
    | cons lim rest ih =>
      simp only [List.all_cons, Bool.and_eq_true] at hall
      simp only [check_limit]
      rw [if_neg ?_]
      · exact ih hall.2
      · intro hcontra
        have hlm : limit_matches name ch lim = true := by
          simp [limit_matches, hcontra.1, hcontra.2]
        rw [hlm] at hall
        simp at hall
  · intro env limits h
    by_cases hl : limits = []
    · subst hl
      simp [check_power_limits] at h
    · rw [check_power_limits, if_neg hl] at h
      rcases cp_fold_fail env limits ("PASS", 0) h with h1 | h2
      · simp at h1
      · exact h2
  · intro env mode configs limits limits2 connected
    unfold run_power_sequence
    by_cases hcn : configs = []
    · simp [hcn]
    · rw [if_neg hcn, if_neg hcn]
      rw [power_run_snd, power_run_snd]

theorem no_limit_channel_harmless_witness :
    check_limit "DP1" 1 0 [] = "NO_LIMIT" ∧
      [cpLimitFail].any (limit_blamed cpEnvFail) = true :=
  ⟨(no_limit_channel_harmless.1 "DP1" 1 0 [] rfl).1,
   no_limit_channel_harmless.2.1 cpEnvFail [cpLimitFail]
     (by norm_num [check_power_limits, cp_check_step, cpEnvFail, cpLimitFail,
        within_limits])⟩

theorem power_off_reverse_no_measure_witness :
    (run_power_sequence powerEnvEx "OFF" [powerItemEx] [] (fun _ => false)).2 =
      ((run_power_sequence powerEnvEx "ON" [powerItemEx] []
        (fun _ => false)).2).reverse :=
  (power_off_reverse_no_measure powerEnvEx [powerItemEx] [] (fun _ => false)).1
